import Mathlib

/-!
Verification of the assistant-proxy request handler
(`src/controllers/message.controller.ts`): a shallow embedding of the
credential resolver, session (thread) manager with its in-memory lock set,
run poll loop, tool-call dispatcher and response extractor, together with
theorems about the properties the specification states for them.

External effects (HTTP calls, `JSON.parse`, `JSON.stringify`, the assistant
backend) are modelled as environment parameters; the control flow, the
constants and every branch are translated from the TypeScript source.
-/

/-- `TIMEOUT = 30000` (message.controller.ts line 14). -/
def TIMEOUT : Nat := 30000

/-- `POLL_INTERVAL = 1000` (message.controller.ts line 15). -/
def POLL_INTERVAL : Nat := 1000

/-- A JSON value, as produced by `JSON.parse` and consumed by
`JSON.stringify`. -/
inductive Json where
  | null
  | bool (b : Bool)
  | num (n : Int)
  | str (s : String)
  | arr (items : List Json)
  | obj (fields : List (String × Json))

/-- JavaScript falsiness of a JSON value (`null`, `false`, `0`, `""`). -/
def jsFalsy : Json → Bool
  | Json.null => true
  | Json.bool b => !b
  | Json.num n => n == 0
  | Json.str s => s == ""
  | _ => false

/-- JavaScript `a || b` where `a` is an optional JSON value
(`error.response?.data || error.message`). -/
def jsOr (primary : Option Json) (fallback : Json) : Json :=
  match primary with
  | some v => if jsFalsy v then fallback else v
  | none => fallback

/-- Outcome of an outbound HTTP call made through axios: the response data on
success, or a failure (timeout, transport error, remote error status) carrying
the optional error-response data and the error message. -/
inductive HttpResult (α : Type) where
  | ok (data : α)
  | err (responseData : Option Json) (message : String)

/-- Body shape of the WordPress credential endpoint: the `apiKey` field may be
missing. -/
structure WpKeyResponse where
  apiKey : Option String

/-- `fetchApiKeyFromWordPress` (message.controller.ts lines 309-336): the
outcome of the single outbound GET is the argument; on any axios failure the
catch returns `null`, and on success the result is `response.data.apiKey ||
null` (a missing or empty `apiKey` field also yields `null`). -/
def fetchApiKeyFromWordPress (resp : HttpResult WpKeyResponse) : Option String :=
  match resp with
  | HttpResult.ok d =>
      match d.apiKey with
      | some k => if k = "" then none else some k
      | none => none
  | HttpResult.err _ _ => none

/-- The failure cases of the credential lookup named by the spec: transport
failure / timeout / error status (the axios call rejects), or a 200 response
whose body is missing the `apiKey` field. -/
def credentialLookupFails (resp : HttpResult WpKeyResponse) : Prop :=
  (∃ rd msg, resp = HttpResult.err rd msg) ∨
  (∃ d, resp = HttpResult.ok d ∧ d.apiKey = none)

/-- The whitespace characters relevant to `String.prototype.trim`. -/
def isJsWhitespace (c : Char) : Bool :=
  c = ' ' || c = '\t' || c = '\n' || c = '\r'

/-- JavaScript `String.prototype.trim`: strip whitespace from both ends. -/
def jsTrim (s : String) : String :=
  String.mk (((s.data.dropWhile isJsWhitespace).reverse.dropWhile isJsWhitespace).reverse)

/-- A conversation thread: this service only holds the opaque identifier. -/
structure Thread where
  id : String
deriving DecidableEq

/-- Observable assistant-backend calls made while resolving a thread. -/
inductive ThreadEvent where
  | retrieveAttempt (threadId : String)
  | createCall
deriving DecidableEq

/-- Environment for `getThreadWithLock`: the outcomes of
`threads.retrieve` and `threads.create`. -/
structure ThreadEnv where
  retrieve : String → Except String Thread
  create : Except String Thread

/-- Result of `getThreadWithLock`: the returned thread (or the thrown error),
the lock set after the `finally` block, and the backend calls issued. -/
structure ThreadResult where
  result : Except String Thread
  locks : Finset String
  events : List ThreadEvent

/-- The `try` body of `getThreadWithLock` (message.controller.ts lines
165-186): if `data.threadId && data.threadId.trim() !== ''`, attempt
`threads.retrieve`; on success return the existing thread, on failure fall
through (the inner catch only warns); otherwise — or after a failed retrieve —
call `threads.create`; if that throws, the outer catch rethrows
`'Failed to retrieve or create thread'`. -/
def threadBody (env : ThreadEnv) (threadId : Option String) :
    Except String Thread × List ThreadEvent :=
  let attempt : Option Thread × List ThreadEvent :=
    match threadId with
    | some tid =>
        if tid ≠ "" ∧ jsTrim tid ≠ "" then
          match env.retrieve tid with
          | Except.ok t => (some t, [ThreadEvent.retrieveAttempt tid])
          | Except.error _ => (none, [ThreadEvent.retrieveAttempt tid])
        else (none, [])
    | none => (none, [])
  match attempt with
  | (some t, evs) => (Except.ok t, evs)
  | (none, evs) =>
      match env.create with
      | Except.ok t => (Except.ok t, evs ++ [ThreadEvent.createCall])
      | Except.error _ =>
          (Except.error "Failed to retrieve or create thread",
           evs ++ [ThreadEvent.createCall])

/-- `getThreadWithLock` (message.controller.ts lines 152-191): the lock key is
`data.assistantId`; the key is added to the in-memory lock set, the body runs,
and the `finally` block deletes the key again on every exit path. The wait
loop at entry only spins while another invocation holds the key, so this
models a single invocation from the point where the key is free. -/
def getThreadWithLock (env : ThreadEnv) (threadId : Option String)
    (assistantId : String) (locks : Finset String) : ThreadResult :=
  let threadKey := assistantId
  let body := threadBody env threadId
  { result := body.1
    locks := (insert threadKey locks).erase threadKey
    events := body.2 }

/-- Run status, the closed enumeration owned by the assistant backend. -/
inductive RunStatus where
  | queued
  | in_progress
  | requires_action
  | completed
  | failed
  | cancelled
  | expired
deriving DecidableEq

/-- A pending tool call: identifier, function name, JSON-encoded argument
payload (`toolCall.function.arguments`). -/
structure ToolCall where
  id : String
  name : String
  arguments : String
deriving DecidableEq

/-- A run as observed through `runs.retrieve`: its identifier, status, and —
when present — `required_action?.submit_tool_outputs.tool_calls`. -/
structure Run where
  id : String
  status : RunStatus
  toolCalls : Option (List ToolCall)
deriving DecidableEq

/-- The first axios.post argument at message.controller.ts line 236: the
SINGLE-QUOTED literal string, in which the template placeholder
`$\x7bdata.wordpressUrl\x7d` is never interpolated. -/
def submitUrl : String := "$\x7bdata.wordpressUrl\x7d/wp-json/brand-voice/v1/submit"

/-- The request body built at message.controller.ts lines 226-231: the parsed
arguments spread first, then `webhook_url`, `report_type` and `status`. -/
structure SubmitBody where
  args : Json
  webhook_url : String
  report_type : String
  status : String

/-- An outbound tool-call submission: URL plus body. -/
structure SubmitRequest where
  url : String
  body : SubmitBody

/-- The request issued for one tool call whose arguments parsed to `args`:
POST to the literal `submitUrl` with the merged body
(`report_type: 'mixituponline'`, `status: 'pending'`). -/
def mkSubmitRequest (args : Json) (zapier_webhook_url : String) : SubmitRequest :=
  { url := submitUrl
    body := { args := args
              webhook_url := zapier_webhook_url
              report_type := "mixituponline"
              status := "pending" } }

/-- Environment for the tool-call dispatcher: the outcome of `JSON.parse` on
an argument payload (the thrown message on failure), the outcome of
`axios.post` for a request, and `JSON.stringify`. -/
structure DispatchEnv where
  parse : String → Except String Json
  post : SubmitRequest → HttpResult Json
  stringify : Json → String

/-- One entry of the `tool_outputs` array submitted back to the run. -/
structure ToolOutput where
  tool_call_id : String
  output : String
deriving DecidableEq

/-- The error object built in the per-call catch (message.controller.ts lines
265-269): `\x7b error: 'Failed to process tool call', details \x7d`. -/
def mkToolCallErrorObj (details : Json) : Json :=
  Json.obj [("error", Json.str "Failed to process tool call"),
            ("details", details)]

/-- Processing of a single tool call (message.controller.ts lines 220-271):
parse the arguments; on success POST the merged body to `submitUrl` and answer
with the stringified response data; on any failure (parse throw — where
`error.response` is undefined, so `details` is the message — or axios
failure) answer with the stringified error object. Every branch produces an
output carrying this call's identifier. The second component records the
outbound request this call issued, if any. -/
def processToolCall (env : DispatchEnv) (zapier_webhook_url : String)
    (tc : ToolCall) : ToolOutput × Option SubmitRequest :=
  match env.parse tc.arguments with
  | Except.error msg =>
      ({ tool_call_id := tc.id
         output := env.stringify (mkToolCallErrorObj (Json.str msg)) }, none)
  | Except.ok args =>
      let req := mkSubmitRequest args zapier_webhook_url
      match env.post req with
      | HttpResult.ok respData =>
          ({ tool_call_id := tc.id, output := env.stringify respData }, some req)
      | HttpResult.err respData msg =>
          ({ tool_call_id := tc.id
             output := env.stringify
               (mkToolCallErrorObj (jsOr respData (Json.str msg))) }, some req)

/-- `Promise.all(toolCalls.map(...))`: every pending call is processed; the
outputs are collected in call order, and the outbound requests issued are
collected alongside. -/
def processToolCalls (env : DispatchEnv) (zapier_webhook_url : String)
    (tcs : List ToolCall) : List ToolOutput × List SubmitRequest :=
  let results := tcs.map (processToolCall env zapier_webhook_url)
  (results.map Prod.fst, results.filterMap Prod.snd)

/-- Which side of the `Promise.race` at message.controller.ts lines 218-276
settles first: the batch of tool calls, or the 10000 ms rejection timer. -/
inductive BatchOutcome where
  | completes
  | timesOut
deriving DecidableEq

/-- Observable outbound effects of one `checkRunStatus` invocation. -/
inductive RunEvent where
  | postCall (req : SubmitRequest)
  | submittedOutputs (outputs : List ToolOutput)

/-- Environment for one `checkRunStatus` invocation: the outcome of the
initial `runs.retrieve`, the race outcome, the outcome of
`runs.submitToolOutputs`, and the outcome of the final `runs.retrieve` after
submission. -/
structure CheckEnv where
  dispatch : DispatchEnv
  retrieveRun : Except String Run
  batchOutcome : BatchOutcome
  submitResult : Except String Unit
  retrieveRunAfterSubmit : Except String Run

/-- `checkRunStatus` (message.controller.ts lines 201-301). Retrieve the run;
if its status is `requires_action` and it carries a non-empty tool-call list,
run the race: on batch timeout the inner catch rethrows
`'Failed to process tool calls: Tool calls timeout'` with nothing submitted;
on completion the full output set is submitted in one request and the run is
re-retrieved (failures of either are wrapped by the same inner catch).
Otherwise check the early wall-clock margin `elapsed > TIMEOUT - 2000` and
throw `'Operation timeout'`, else return the run. `elapsed` is the value of
`Date.now() - startTime` at this invocation. -/
def checkRunStatus (env : CheckEnv) (elapsed : Nat)
    (zapier_webhook_url : String) : Except String Run × List RunEvent :=
  match env.retrieveRun with
  | Except.error e => (Except.error e, [])
  | Except.ok run =>
    let pendingCalls : Option (List ToolCall) :=
      if run.status = RunStatus.requires_action then
        match run.toolCalls with
        | some tcs => if tcs.length > 0 then some tcs else none
        | none => none
      else none
    match pendingCalls with
    | some tcs =>
        match env.batchOutcome with
        | BatchOutcome.timesOut =>
            (Except.error "Failed to process tool calls: Tool calls timeout", [])
        | BatchOutcome.completes =>
            let processed := processToolCalls env.dispatch zapier_webhook_url tcs
            let events := processed.2.map RunEvent.postCall ++
              [RunEvent.submittedOutputs processed.1]
            match env.submitResult with
            | Except.error msg =>
                (Except.error ("Failed to process tool calls: " ++ msg), events)
            | Except.ok _ =>
                match env.retrieveRunAfterSubmit with
                | Except.error msg =>
                    (Except.error ("Failed to process tool calls: " ++ msg), events)
                | Except.ok run2 => (Except.ok run2, events)
    | none =>
        if elapsed > TIMEOUT - 2000 then
          (Except.error "Operation timeout", [])
        else
          (Except.ok run, [])

/-- The loop guard `['in_progress', 'queued', 'requires_action']
.includes(currentRun.status)`. -/
def isActiveStatus (s : RunStatus) : Bool :=
  s = RunStatus.in_progress || s = RunStatus.queued || s = RunStatus.requires_action

/-- The poll loop of `runAssistant` (message.controller.ts lines 99-114):
while the status is active, throw `'Operation timeout'` once
`elapsed > TIMEOUT`, otherwise sleep one `POLL_INTERVAL` and call
`checkRunStatus` (whose thrown errors propagate). Network calls are modelled
as instantaneous, so elapsed time advances exactly by the sleeps. `k` indexes
the successive `checkRunStatus` environments; `fuel` bounds the recursion and
is never exhausted before the wall-clock checks fire. The result carries the
elapsed time at which the loop exited or threw. -/
def pollLoop (env : Nat → CheckEnv) (zapier_webhook_url : String) :
    Nat → Nat → Run → Nat → Except (String × Nat) (Run × Nat)
  | 0, _, _, elapsed => Except.error ("poll fuel exhausted", elapsed)
  | fuel + 1, k, run, elapsed =>
    if isActiveStatus run.status then
      if elapsed > TIMEOUT then Except.error ("Operation timeout", elapsed)
      else
        let elapsed2 := elapsed + POLL_INTERVAL
        match (checkRunStatus (env k) elapsed2 zapier_webhook_url).1 with
        | Except.error msg => Except.error (msg, elapsed2)
        | Except.ok run2 => pollLoop env zapier_webhook_url fuel (k + 1) run2 elapsed2
    else Except.ok (run, elapsed)

/-- Message author role. -/
inductive Role where
  | user
  | assistant
deriving DecidableEq

/-- One entry of a message's `content` array: a text segment carrying
`text.value`, or a non-textual segment (no `'text' in` it). -/
inductive ContentPart where
  | text (value : String)
  | other
deriving DecidableEq

/-- A thread message as returned by `messages.list`. -/
structure Message where
  role : Role
  created_at : Int
  content : List ContentPart
deriving DecidableEq

/-- The sort comparator `(a, b) => b.created_at - a.created_at`: descending by
creation time (stable, as JavaScript Array.prototype.sort is). -/
def createdAtDesc (a b : Message) : Bool :=
  b.created_at ≤ a.created_at

/-- The placeholder returned when no assistant text is available
(message.controller.ts line 128). -/
def noAssistantResponse : String := "No assistant response available."

/-- The response extractor (message.controller.ts lines 121-128): filter the
listed messages to assistant-authored ones, sort descending by `created_at`,
take the first message's first content segment; if it exists and is textual,
return its `text.value`, otherwise return the placeholder. -/
def extractLatestAssistantMessage (msgs : List Message) : String :=
  let sortedAssistant :=
    (msgs.filter (fun m => m.role == Role.assistant)).mergeSort createdAtDesc
  match sortedAssistant.head? with
  | some m =>
      match m.content.head? with
      | some (ContentPart.text v) => v
      | _ => noAssistantResponse
  | none => noAssistantResponse

/-- The inbound request body. -/
structure RequestData where
  message : String
  assistantId : String
  threadId : Option String
  apiKeyName : String
  wordpressUrl : String
  zapier_webhook_url : String

/-- Observable outbound calls of a whole `runAssistant` invocation. -/
inductive TraceEvent where
  | credentialLookup
  | threadCall (e : ThreadEvent)
  | messageCreate (threadId : String)
  | runCreate (threadId : String)
  | runEvent (e : RunEvent)
  | listMessages (threadId : String)

/-- Environment for a whole `runAssistant` invocation. -/
structure HandlerEnv where
  credential : HttpResult WpKeyResponse
  thread : ThreadEnv
  messageCreate : Except String Unit
  createAndPoll : Except String Run
  check : Nat → CheckEnv
  listMessages : Except String (List Message)

/-- The JSON response returned to the caller. -/
inductive Response where
  | success (threadId : String) (runId : String) (status : RunStatus)
      (allMessages : List Message) (messages : List String)
  | error (msg : String)

/-- The body of the top-level catch (message.controller.ts line 143). -/
def genericError : String := "An error occurred while running the assistant"

/-- Recursion bound for the handler's poll loop; the wall-clock checks always
fire well before 64 iterations (each iteration advances elapsed time by
`POLL_INTERVAL`, and `checkRunStatus` throws once it passes
`TIMEOUT - 2000`). -/
def handlerFuel : Nat := 64

/-- `runAssistant` (message.controller.ts lines 41-145): fetch the credential
(throw `'API key not found'` if absent), resolve the thread under the lock,
add the user message, start the run, poll to a terminal state, list the
messages and extract the latest assistant text. Every thrown error is caught
at the top and converted to the generic error response. The second component
is the trace of outbound calls issued. -/
def runAssistant (env : HandlerEnv) (data : RequestData)
    (locks : Finset String) : Response × List TraceEvent :=
  match fetchApiKeyFromWordPress env.credential with
  | none => (Response.error genericError, [TraceEvent.credentialLookup])
  | some _ =>
    let tres := getThreadWithLock env.thread data.threadId data.assistantId locks
    let tr1 := TraceEvent.credentialLookup :: tres.events.map TraceEvent.threadCall
    match tres.result with
    | Except.error _ => (Response.error genericError, tr1)
    | Except.ok thread =>
      match env.messageCreate with
      | Except.error _ =>
          (Response.error genericError, tr1 ++ [TraceEvent.messageCreate thread.id])
      | Except.ok _ =>
        let tr2 := tr1 ++ [TraceEvent.messageCreate thread.id]
        match env.createAndPoll with
        | Except.error _ =>
            (Response.error genericError, tr2 ++ [TraceEvent.runCreate thread.id])
        | Except.ok run0 =>
          let tr3 := tr2 ++ [TraceEvent.runCreate thread.id]
          match pollLoop env.check data.zapier_webhook_url handlerFuel 0 run0 0 with
          | Except.error _ => (Response.error genericError, tr3)
          | Except.ok (finalRun, _) =>
            match env.listMessages with
            | Except.error _ =>
                (Response.error genericError, tr3 ++ [TraceEvent.listMessages thread.id])
            | Except.ok msgs =>
              let content := extractLatestAssistantMessage msgs
              (Response.success thread.id finalRun.id finalRun.status msgs [content],
               tr3 ++ [TraceEvent.listMessages thread.id])

/-- A concrete dispatcher environment: parsing succeeds only on the payload
`"argsGood"`, every POST succeeds, stringify is a simple serializer. -/
def sampleDispatchEnv : DispatchEnv :=
  { parse := fun s =>
      if s = "argsGood" then Except.ok Json.null
      else Except.error "Unexpected token in JSON"
    post := fun _ => HttpResult.ok (Json.str "received")
    stringify := fun j =>
      match j with
      | Json.str s => s
      | _ => "serialized" }

/-- A tool call whose argument payload fails to parse. -/
def sampleToolCallBad : ToolCall :=
  { id := "call1", name := "generate_report", arguments := "argsBad" }

/-- A tool call whose argument payload parses. -/
def sampleToolCallGood : ToolCall :=
  { id := "call2", name := "generate_report", arguments := "argsGood" }

/-- A batch with one failing and one succeeding call. -/
def sampleToolCalls : List ToolCall := [sampleToolCallBad, sampleToolCallGood]

/-- A completed run. -/
def doneRun : Run := { id := "run1", status := RunStatus.completed, toolCalls := none }

/-- A run reporting `requires_action` with two pending tool calls. -/
def actionRun : Run :=
  { id := "run1", status := RunStatus.requires_action, toolCalls := some sampleToolCalls }

/-- A `checkRunStatus` environment in which the tool-call batch completes. -/
def completesCheckEnv : CheckEnv :=
  { dispatch := sampleDispatchEnv
    retrieveRun := Except.ok actionRun
    batchOutcome := BatchOutcome.completes
    submitResult := Except.ok ()
    retrieveRunAfterSubmit := Except.ok doneRun }

/-- The same environment, but the outer 10000 ms batch timer fires first. -/
def timesOutCheckEnv : CheckEnv :=
  { completesCheckEnv with batchOutcome := BatchOutcome.timesOut }

/-- A run that never leaves `in_progress`. -/
def stuckRun : Run := { id := "run1", status := RunStatus.in_progress, toolCalls := none }

/-- A `checkRunStatus` environment whose retrieved run is always `stuckRun`. -/
def stuckCheckEnv : CheckEnv :=
  { dispatch := sampleDispatchEnv
    retrieveRun := Except.ok stuckRun
    batchOutcome := BatchOutcome.completes
    submitResult := Except.ok ()
    retrieveRunAfterSubmit := Except.ok stuckRun }

/-- Every poll of the run observes `in_progress`. -/
def stuckEnv : Nat → CheckEnv := fun _ => stuckCheckEnv

/-- A thread environment in which exactly the thread `"thread_1"` resolves. -/
def sampleThreadEnv : ThreadEnv :=
  { retrieve := fun tid =>
      if tid = "thread_1" then Except.ok (Thread.mk "thread_1")
      else Except.error "404 not found"
    create := Except.ok (Thread.mk "thread_new") }

/-- A handler environment whose credential lookup times out. -/
def failingCredentialEnv : HandlerEnv :=
  { credential := HttpResult.err none "timeout of 5000ms exceeded"
    thread := sampleThreadEnv
    messageCreate := Except.ok ()
    createAndPoll := Except.ok doneRun
    check := stuckEnv
    listMessages := Except.ok [] }

/-- A concrete inbound request. -/
def sampleRequest : RequestData :=
  { message := "hi"
    assistantId := "asst_1"
    threadId := some "thread_1"
    apiKeyName := "key"
    wordpressUrl := "https://tenant.example"
    zapier_webhook_url := "https://hooks.example/1" }

/-- A message list whose most recent assistant message says `"Hello"`. -/
def helloMessages : List Message :=
  [ { role := Role.user, created_at := 1, content := [ContentPart.text "hi"] },
    { role := Role.assistant, created_at := 5, content := [ContentPart.text "old answer"] },
    { role := Role.assistant, created_at := 10, content := [ContentPart.text "Hello"] } ]

/-- The most recent assistant message of `helloMessages`. -/
def helloTop : Message :=
  { role := Role.assistant, created_at := 10, content := [ContentPart.text "Hello"] }

/-- Every branch of `processToolCall` answers with the call's own
identifier. -/
theorem processToolCall_tool_call_id (env : DispatchEnv) (wh : String)
    (tc : ToolCall) : ((processToolCall env wh tc).1).tool_call_id = tc.id := by
  unfold processToolCall
  cases hp : env.parse tc.arguments with
  | error msg => rfl
  | ok args =>
    cases hq : env.post (mkSubmitRequest args wh) <;> simp [hq]

/-- The head of a list merge-sorted by descending `created_at` is a member of
the list and has maximal `created_at`. -/
theorem mergeSort_createdAtDesc_head (l : List Message) (h : Message)
    (hh : (l.mergeSort createdAtDesc).head? = some h) :
    h ∈ l ∧ ∀ x ∈ l, x.created_at ≤ h.created_at := by
  have htrans : ∀ a b c : Message, createdAtDesc a b = true → createdAtDesc b c = true →
      createdAtDesc a c = true := by
    intro a b c hab hbc
    simp only [createdAtDesc, decide_eq_true_eq] at hab hbc ⊢
    exact le_trans hbc hab
  have htotal : ∀ a b : Message, (createdAtDesc a b || createdAtDesc b a) = true := by
    intro a b
    simp only [createdAtDesc, Bool.or_eq_true, decide_eq_true_eq]
    exact le_total _ _
  have hsorted := List.sorted_mergeSort htrans htotal l
  have hperm := List.mergeSort_perm l createdAtDesc
  cases hms : l.mergeSort createdAtDesc with
  | nil => rw [hms] at hh; simp at hh
  | cons a t =>
    rw [hms] at hh hsorted hperm
    have ha : a = h := by simpa using hh
    subst ha
    have hpc := (List.pairwise_cons.mp hsorted).1
    constructor
    · exact hperm.mem_iff.mp (List.mem_cons_self a t)
    · intro x hx
      have hx2 : x ∈ a :: t := hperm.mem_iff.mpr hx
      rcases List.mem_cons.mp hx2 with hxa | hxt
      · exact le_of_eq (congrArg Message.created_at hxa)
      · have := hpc x hxt
        simpa [createdAtDesc] using this

/-- C10: Lock-release invariant. Every invocation of `getThreadWithLock`
removes the assistant-identifier key it added to the in-memory lock set
before returning, on every exit path — whatever the retrieve/create outcomes
(resume, create, or throw), the final lock set is the initial one with the
key absent, so no completed invocation leaves its key held. -/
theorem C10_lock_released_every_path (env : ThreadEnv) (threadId : Option String)
    (assistantId : String) (locks : Finset String) :
    (getThreadWithLock env threadId assistantId locks).locks = locks.erase assistantId ∧
    assistantId ∉ (getThreadWithLock env threadId assistantId locks).locks := by
  have hlocks : (getThreadWithLock env threadId assistantId locks).locks =
      (insert assistantId locks).erase assistantId := rfl
  constructor
  · rw [hlocks]
    ext x
    simp only [Finset.mem_erase, Finset.mem_insert]
    constructor
    · rintro ⟨hx, hx2 | hx3⟩
      · exact absurd hx2 hx
      · exact ⟨hx, hx3⟩
    · rintro ⟨hx, hx3⟩
      exact ⟨hx, Or.inr hx3⟩
  · rw [hlocks]
    exact Finset.not_mem_erase _ _

/-- C5: With a non-empty (after trimming) thread identifier, a successful
`threads.retrieve` returns the existing thread and no `threads.create` call is
made; and when the retrieve fails, the manager falls back to `threads.create`
and the invocation still succeeds with the new thread. -/
theorem C5_resume_or_fallback (env : ThreadEnv) (tid : String)
    (assistantId : String) (locks : Finset String)
    (hne : tid ≠ "") (htrim : jsTrim tid ≠ "") :
    (∀ t, env.retrieve tid = Except.ok t →
      (getThreadWithLock env (some tid) assistantId locks).result = Except.ok t ∧
      ThreadEvent.createCall ∉ (getThreadWithLock env (some tid) assistantId locks).events) ∧
    (∀ e t, env.retrieve tid = Except.error e → env.create = Except.ok t →
      (getThreadWithLock env (some tid) assistantId locks).result = Except.ok t) := by
  constructor
  · intro t hret
    constructor
    · show (threadBody env (some tid)).1 = Except.ok t
      simp [threadBody, hne, htrim, hret]
    · show ThreadEvent.createCall ∉ (threadBody env (some tid)).2
      simp [threadBody, hne, htrim, hret]
  · intro e t hret hcre
    show (threadBody env (some tid)).1 = Except.ok t
    simp [threadBody, hne, htrim, hret, hcre]

/-- C6: When the supplied thread identifier is absent or empty after trimming,
`getThreadWithLock` never attempts a resume and issues exactly one
`threads.create` call. -/
theorem C6_empty_thread_id_creates (env : ThreadEnv) (threadId : Option String)
    (assistantId : String) (locks : Finset String)
    (hempty : ∀ tid, threadId = some tid → jsTrim tid = "") :
    (getThreadWithLock env threadId assistantId locks).events = [ThreadEvent.createCall] := by
  show (threadBody env threadId).2 = [ThreadEvent.createCall]
  cases threadId with
  | none => cases hc : env.create <;> simp [threadBody, hc]
  | some tid =>
    have ht := hempty tid rfl
    have hcond : ¬(tid ≠ "" ∧ jsTrim tid ≠ "") := by
      rintro ⟨h1, h2⟩
      exact h2 ht
    cases hc : env.create <;> simp [threadBody, hcond, hc]

/-- C4: On every input whose credential lookup fails (transport failure,
timeout, error status, or a body missing `apiKey`), the resolver returns the
not-found result `none` (it never throws: it is total), and the handler
returns the generic error response having issued no thread, message or run
calls. -/
theorem C4_credential_failure_early_error (env : HandlerEnv) (data : RequestData)
    (locks : Finset String) (hfail : credentialLookupFails env.credential) :
    fetchApiKeyFromWordPress env.credential = none ∧
    (runAssistant env data locks).1 = Response.error genericError ∧
    (runAssistant env data locks).2 = [TraceEvent.credentialLookup] := by
  have hnone : fetchApiKeyFromWordPress env.credential = none := by
    rcases hfail with ⟨rd, msg, h⟩ | ⟨d, h, hk⟩
    · rw [h]; rfl
    · rw [h]; simp [fetchApiKeyFromWordPress, hk]
  refine ⟨hnone, ?_, ?_⟩ <;> simp [runAssistant, hnone]

/-- C1: For every run reporting `requires_action` with a non-empty pending
tool-call list, when the batch completes (the 10000 ms race timer did not
fire) the output set submitted back to the run has exactly one entry per
pending call identifier, in call order, however many individual calls failed;
a call whose argument parse fails, or whose outbound POST fails, contributes
the serialized error object as its output instead of being left unanswered or
aborting the others. -/
theorem C1_tool_outputs_cover_all_calls
    (env : CheckEnv) (elapsed : Nat) (wh : String) (run : Run) (tcs : List ToolCall)
    (hrun : env.retrieveRun = Except.ok run)
    (hstatus : run.status = RunStatus.requires_action)
    (hcalls : run.toolCalls = some tcs)
    (hne : tcs ≠ [])
    (hbatch : env.batchOutcome = BatchOutcome.completes) :
    ∃ outs : List ToolOutput,
      RunEvent.submittedOutputs outs ∈ (checkRunStatus env elapsed wh).2 ∧
      outs.length = tcs.length ∧
      outs.map ToolOutput.tool_call_id = tcs.map ToolCall.id ∧
      (∀ tc ∈ tcs, ∀ msg, env.dispatch.parse tc.arguments = Except.error msg →
        ToolOutput.mk tc.id
          (env.dispatch.stringify (mkToolCallErrorObj (Json.str msg))) ∈ outs) ∧
      (∀ tc ∈ tcs, ∀ args rd msg,
        env.dispatch.parse tc.arguments = Except.ok args →
        env.dispatch.post (mkSubmitRequest args wh) = HttpResult.err rd msg →
        ToolOutput.mk tc.id
          (env.dispatch.stringify (mkToolCallErrorObj (jsOr rd (Json.str msg)))) ∈ outs) := by
  have hlen : tcs.length > 0 := List.length_pos.mpr hne
  have hevents : (checkRunStatus env elapsed wh).2 =
      (processToolCalls env.dispatch wh tcs).2.map RunEvent.postCall ++
      [RunEvent.submittedOutputs (processToolCalls env.dispatch wh tcs).1] := by
    unfold checkRunStatus
    rw [hrun]
    simp only [hstatus, hcalls, hbatch, hlen, if_true, reduceIte]
    cases hs : env.submitResult with
    | error m => simp
    | ok u => cases hr2 : env.retrieveRunAfterSubmit <;> simp
  refine ⟨(processToolCalls env.dispatch wh tcs).1, ?_, ?_, ?_, ?_, ?_⟩
  · rw [hevents]
    exact List.mem_append_right _ (by simp)
  · simp [processToolCalls]
  · simp only [processToolCalls, List.map_map]
    refine List.map_congr_left ?_
    intro tc _
    exact processToolCall_tool_call_id env.dispatch wh tc
  · intro tc htc msg hmsg
    simp only [processToolCalls, List.map_map]
    refine List.mem_map.mpr ⟨tc, htc, ?_⟩
    simp [processToolCall, hmsg]
  · intro tc htc args rd msg hparse hpost
    simp only [processToolCalls, List.map_map]
    refine List.mem_map.mpr ⟨tc, htc, ?_⟩
    simp [processToolCall, hparse, hpost]

/-- C9: For every run reporting `requires_action` with pending tool calls,
when the outer 10000 ms batch timer fires first the whole action-resolution
attempt fails with the wrapped timeout error, and no tool outputs — partial
or otherwise — are submitted to the run. -/
theorem C9_batch_timeout_no_partial_submit
    (env : CheckEnv) (elapsed : Nat) (wh : String) (run : Run) (tcs : List ToolCall)
    (hrun : env.retrieveRun = Except.ok run)
    (hstatus : run.status = RunStatus.requires_action)
    (hcalls : run.toolCalls = some tcs)
    (hne : tcs ≠ [])
    (hbatch : env.batchOutcome = BatchOutcome.timesOut) :
    (checkRunStatus env elapsed wh).1 =
      Except.error "Failed to process tool calls: Tool calls timeout" ∧
    ∀ outs, RunEvent.submittedOutputs outs ∉ (checkRunStatus env elapsed wh).2 := by
  have hlen : tcs.length > 0 := List.length_pos.mpr hne
  have hcheck : checkRunStatus env elapsed wh =
      (Except.error "Failed to process tool calls: Tool calls timeout", []) := by
    unfold checkRunStatus
    rw [hrun]
    simp [hstatus, hcalls, hlen, hbatch]
  rw [hcheck]
  exact ⟨rfl, fun outs h => by simp at h⟩

/-- For a run that never leaves `in_progress`, the poll loop always throws
`'Operation timeout'` at an elapsed time in the window
`(TIMEOUT - 2000, TIMEOUT - 2000 + POLL_INTERVAL]`: the early margin check
inside `checkRunStatus` fires strictly before the loop-top deadline check
can. -/
theorem pollLoop_stuck_aux (env : Nat → CheckEnv) (wh : String)
    (hstuck : ∀ j, ∃ r, (env j).retrieveRun = Except.ok r ∧
      r.status = RunStatus.in_progress) :
    ∀ fuel k run elapsed, run.status = RunStatus.in_progress →
      elapsed ≤ TIMEOUT - 2000 →
      TIMEOUT - 2000 < elapsed + POLL_INTERVAL * fuel →
      ∃ t, pollLoop env wh fuel k run elapsed =
          Except.error ("Operation timeout", t) ∧
        TIMEOUT - 2000 < t ∧ t ≤ TIMEOUT - 2000 + POLL_INTERVAL := by
  intro fuel
  induction fuel with
  | zero =>
    intro k run elapsed _ h1 h2
    simp only [POLL_INTERVAL, Nat.mul_zero, Nat.add_zero] at h2
    omega
  | succ n ih =>
    intro k run elapsed hst h1 h2
    have hactive : isActiveStatus run.status = true := by
      simp [isActiveStatus, hst]
    have hnotover : ¬ elapsed > TIMEOUT := by
      simp only [TIMEOUT] at *
      omega
    obtain ⟨r, hr, hrst⟩ := hstuck k
    have hcheck : checkRunStatus (env k) (elapsed + POLL_INTERVAL) wh =
        (if elapsed + POLL_INTERVAL > TIMEOUT - 2000 then
          (Except.error "Operation timeout", ([] : List RunEvent))
         else (Except.ok r, [])) := by
      unfold checkRunStatus
      rw [hr]
      simp [hrst]
    by_cases hover : elapsed + POLL_INTERVAL > TIMEOUT - 2000
    · refine ⟨elapsed + POLL_INTERVAL, ?_, hover, ?_⟩
      · simp only [pollLoop, hactive, if_true, hnotover, if_false, hcheck, hover,
          reduceIte]
      · simp only [POLL_INTERVAL, TIMEOUT] at *
        omega
    · have hstep : pollLoop env wh (n + 1) k run elapsed =
          pollLoop env wh n (k + 1) r (elapsed + POLL_INTERVAL) := by
        simp only [pollLoop, hactive, if_true, hnotover, if_false, hcheck, hover,
          reduceIte]
      rw [hstep]
      refine ih (k + 1) r (elapsed + POLL_INTERVAL) hrst (by omega) ?_
      have : elapsed + POLL_INTERVAL * (n + 1) =
          elapsed + POLL_INTERVAL + POLL_INTERVAL * n := by ring
      omega

/-- C2 (amended): For every run that never leaves `in_progress`, the handler
terminates with a timeout error no earlier than `TIMEOUT - 2000` after request
start and no later than `TIMEOUT - 2000` plus one poll interval — i.e. one
poll-step past the EARLY margin check in `checkRunStatus`, strictly before the
nominal `TIMEOUT` deadline. -/
theorem C2_timeout_window_amended (env : Nat → CheckEnv) (wh : String)
    (run0 : Run) (fuel : Nat)
    (hstuck : ∀ j, ∃ r, (env j).retrieveRun = Except.ok r ∧
      r.status = RunStatus.in_progress)
    (hrun0 : run0.status = RunStatus.in_progress)
    (hfuel : 29 ≤ fuel) :
    ∃ t, pollLoop env wh fuel 0 run0 0 = Except.error ("Operation timeout", t) ∧
      TIMEOUT - 2000 < t ∧ t ≤ TIMEOUT - 2000 + POLL_INTERVAL := by
  refine pollLoop_stuck_aux env wh hstuck fuel 0 run0 0 hrun0 (by simp [TIMEOUT]) ?_
  simp only [TIMEOUT, POLL_INTERVAL, Nat.zero_add]
  omega

/-- C2 (counterexample): the claim that the timeout fires no earlier than the
wall-clock deadline `TIMEOUT` is false: with a run stuck `in_progress`, the
loop throws `'Operation timeout'` at elapsed time 29000 ms — strictly before
the 30000 ms deadline — because `checkRunStatus` throws once the elapsed time
passes `TIMEOUT - 2000`. -/
theorem C2_timeout_fires_before_deadline :
    pollLoop stuckEnv "https://hooks.example/1" 64 0 stuckRun 0 =
      Except.error ("Operation timeout", 29000) ∧ 29000 < TIMEOUT := by
  exact ⟨by rfl, by decide⟩

/-- C3 (amended): every pending tool call whose argument payload parses is
dispatched as a POST whose URL is the LITERAL, uninterpolated template string
`submitUrl` (the `$\x7bdata.wordpressUrl\x7d` placeholder is never expanded —
it is not an https endpoint), and whose body is the parsed JSON arguments
merged with `webhook_url`, `report_type := "mixituponline"` and
`status := "pending"`. -/
theorem C3_submit_request_amended (env : DispatchEnv) (wh : String)
    (tc : ToolCall) (args : Json)
    (hparse : env.parse tc.arguments = Except.ok args) :
    (processToolCall env wh tc).2 = some (mkSubmitRequest args wh) ∧
    (mkSubmitRequest args wh).url = submitUrl ∧
    (mkSubmitRequest args wh).body =
      SubmitBody.mk args wh "mixituponline" "pending" := by
  refine ⟨?_, rfl, rfl⟩
  unfold processToolCall
  rw [hparse]
  cases hq : env.post (mkSubmitRequest args wh) <;> simp [hq]

/-- C3 (counterexample): the claim that the submission goes to the fixed
endpoint `https://<fixed host>/wp-json/brand-voice/v1/submit` is false on a
concrete dispatched call: the URL the code passes to axios is the literal
single-quoted template text, which does not even begin with `https://`. -/
theorem C3_submit_url_not_https :
    ((processToolCall sampleDispatchEnv "https://hooks.example/1"
        sampleToolCallGood).2.map SubmitRequest.url) = some submitUrl ∧
    submitUrl.data.take 8 ≠ ("https://").data := by
  refine ⟨by rfl, by decide⟩

/-- C7: Round-trip of the response extractor — whenever the strictly most
recent assistant-authored message of the list has primary textual content
`"Hello"`, the extracted output is `messages: ["Hello"]`. -/
theorem C7_extractor_round_trip (msgs : List Message) (m : Message)
    (hmem : m ∈ msgs) (hrole : m.role = Role.assistant)
    (hcontent : m.content.head? = some (ContentPart.text "Hello"))
    (hlatest : ∀ m2 ∈ msgs, m2.role = Role.assistant → m2 ≠ m →
      m2.created_at < m.created_at) :
    [extractLatestAssistantMessage msgs] = ["Hello"] := by
  have hmfl : m ∈ msgs.filter (fun x => x.role == Role.assistant) :=
    List.mem_filter.mpr ⟨hmem, by simp [hrole]⟩
  cases hh : ((msgs.filter (fun x => x.role == Role.assistant)).mergeSort
      createdAtDesc).head? with
  | none =>
    exfalso
    have hmm : m ∈ (msgs.filter (fun x => x.role == Role.assistant)).mergeSort
        createdAtDesc :=
      (List.mergeSort_perm _ createdAtDesc).mem_iff.mpr hmfl
    cases hms : (msgs.filter (fun x => x.role == Role.assistant)).mergeSort
        createdAtDesc with
    | nil => rw [hms] at hmm; simp at hmm
    | cons a t => rw [hms] at hh; simp at hh
  | some hd =>
    obtain ⟨hin, hmax⟩ := mergeSort_createdAtDesc_head _ hd hh
    have hinmsgs : hd ∈ msgs := (List.mem_filter.mp hin).1
    have hrole2 : hd.role = Role.assistant := by
      have h2 := (List.mem_filter.mp hin).2
      simpa using h2
    have heq : hd = m := by
      by_contra hne2
      have hlt := hlatest hd hinmsgs hrole2 hne2
      have hle := hmax m hmfl
      omega
    subst heq
    simp only [extractLatestAssistantMessage, hh, hcontent]

/-- C8: For an empty message list — and in general for any list containing no
assistant-authored message whose primary content segment is textual — the
extractor returns the explicit placeholder instead of throwing (it is a total
function). -/
theorem C8_extractor_placeholder (msgs : List Message)
    (hnotext : ∀ m ∈ msgs, m.role = Role.assistant →
      ∀ v, m.content.head? ≠ some (ContentPart.text v)) :
    extractLatestAssistantMessage msgs = noAssistantResponse := by
  cases hh : ((msgs.filter (fun x => x.role == Role.assistant)).mergeSort
      createdAtDesc).head? with
  | none => simp only [extractLatestAssistantMessage, hh]
  | some hd =>
    obtain ⟨hin, _⟩ := mergeSort_createdAtDesc_head _ hd hh
    have hinmsgs : hd ∈ msgs := (List.mem_filter.mp hin).1
    have hrole2 : hd.role = Role.assistant := by
      have h2 := (List.mem_filter.mp hin).2
      simpa using h2
    simp only [extractLatestAssistantMessage, hh]
    cases hc : hd.content.head? with
    | none => rfl
    | some part =>
      cases part with
      | text v => exact absurd hc (hnotext hd hinmsgs hrole2 v)
      | other => rfl

/-- Witness for C1 at a concrete two-call batch with one parse failure. -/
theorem C1_tool_outputs_cover_all_calls_witness :
    ∃ outs : List ToolOutput,
      RunEvent.submittedOutputs outs ∈
        (checkRunStatus completesCheckEnv 0 "https://hooks.example/1").2 ∧
      outs.length = sampleToolCalls.length ∧
      outs.map ToolOutput.tool_call_id = sampleToolCalls.map ToolCall.id ∧
      (∀ tc ∈ sampleToolCalls, ∀ msg,
        completesCheckEnv.dispatch.parse tc.arguments = Except.error msg →
        ToolOutput.mk tc.id
          (completesCheckEnv.dispatch.stringify
            (mkToolCallErrorObj (Json.str msg))) ∈ outs) ∧
      (∀ tc ∈ sampleToolCalls, ∀ args rd msg,
        completesCheckEnv.dispatch.parse tc.arguments = Except.ok args →
        completesCheckEnv.dispatch.post
          (mkSubmitRequest args "https://hooks.example/1") = HttpResult.err rd msg →
        ToolOutput.mk tc.id
          (completesCheckEnv.dispatch.stringify
            (mkToolCallErrorObj (jsOr rd (Json.str msg)))) ∈ outs) :=
  C1_tool_outputs_cover_all_calls completesCheckEnv 0 "https://hooks.example/1"
    actionRun sampleToolCalls rfl rfl rfl (by decide) rfl

/-- Witness for C9 at the same concrete batch with the race timer firing. -/
theorem C9_batch_timeout_no_partial_submit_witness :
    (checkRunStatus timesOutCheckEnv 0 "https://hooks.example/1").1 =
      Except.error "Failed to process tool calls: Tool calls timeout" ∧
    ∀ outs, RunEvent.submittedOutputs outs ∉
      (checkRunStatus timesOutCheckEnv 0 "https://hooks.example/1").2 :=
  C9_batch_timeout_no_partial_submit timesOutCheckEnv 0 "https://hooks.example/1"
    actionRun sampleToolCalls rfl rfl rfl (by decide) rfl

/-- Witness for the amended C2 at the concrete stuck run. -/
theorem C2_timeout_window_witness :
    ∃ t, pollLoop stuckEnv "https://hooks.example/1" 64 0 stuckRun 0 =
        Except.error ("Operation timeout", t) ∧
      TIMEOUT - 2000 < t ∧ t ≤ TIMEOUT - 2000 + POLL_INTERVAL :=
  C2_timeout_window_amended stuckEnv "https://hooks.example/1" stuckRun 64
    (fun _ => ⟨stuckRun, rfl, rfl⟩) rfl (by decide)

/-- Witness for the amended C3 at a concrete successfully parsed call. -/
theorem C3_submit_request_witness :
    (processToolCall sampleDispatchEnv "https://hooks.example/1"
      sampleToolCallGood).2 =
      some (mkSubmitRequest Json.null "https://hooks.example/1") ∧
    (mkSubmitRequest Json.null "https://hooks.example/1").url = submitUrl ∧
    (mkSubmitRequest Json.null "https://hooks.example/1").body =
      SubmitBody.mk Json.null "https://hooks.example/1" "mixituponline" "pending" :=
  C3_submit_request_amended sampleDispatchEnv "https://hooks.example/1"
    sampleToolCallGood Json.null rfl

/-- Witness for C4 at a concrete timed-out credential lookup. -/
theorem C4_credential_failure_early_error_witness :
    fetchApiKeyFromWordPress failingCredentialEnv.credential = none ∧
    (runAssistant failingCredentialEnv sampleRequest ∅).1 =
      Response.error genericError ∧
    (runAssistant failingCredentialEnv sampleRequest ∅).2 =
      [TraceEvent.credentialLookup] :=
  C4_credential_failure_early_error failingCredentialEnv sampleRequest ∅
    (Or.inl ⟨none, "timeout of 5000ms exceeded", rfl⟩)

/-- Witness for C5 at a concrete resumable thread identifier. -/
theorem C5_resume_or_fallback_witness :
    (getThreadWithLock sampleThreadEnv (some "thread_1") "asst_1" ∅).result =
      Except.ok (Thread.mk "thread_1") ∧
    ThreadEvent.createCall ∉
      (getThreadWithLock sampleThreadEnv (some "thread_1") "asst_1" ∅).events :=
  (C5_resume_or_fallback sampleThreadEnv "thread_1" "asst_1" ∅ (by decide)
    (by decide)).1 (Thread.mk "thread_1") rfl

/-- Witness for C6 at a whitespace-only thread identifier. -/
theorem C6_empty_thread_id_creates_witness :
    (getThreadWithLock sampleThreadEnv (some "   ") "asst_1" ∅).events =
      [ThreadEvent.createCall] :=
  C6_empty_thread_id_creates sampleThreadEnv (some "   ") "asst_1" ∅
    (by intro tid h; injection h with h2; subst h2; decide)

/-- Witness for C7 at the concrete `helloMessages` list. -/
theorem C7_extractor_round_trip_witness :
    [extractLatestAssistantMessage helloMessages] = ["Hello"] :=
  C7_extractor_round_trip helloMessages helloTop (by decide) rfl rfl (by decide)

/-- Witness for C8 at the empty message list. -/
theorem C8_extractor_placeholder_witness :
    extractLatestAssistantMessage [] = noAssistantResponse :=
  C8_extractor_placeholder []
    (by intro m hm; exact absurd hm (List.not_mem_nil m))
